import Mathlib

/-!
Verification of the fractalrust escape-time fractal generator.

The Rust sources (`src/fractal.rs`, `src/app.rs`, `src/renderer.rs`) are
shallowly embedded below.  `f64` values are modelled by their exact rational
contents (`ℚ`) and double arithmetic by exact rational arithmetic; `u32` and
`usize` are modelled by `ℕ`, with an explicit `% 2 ^ 32` at the two places
where a `u32` multiplication or sum can wrap.  The transcendental complex
power `Complex::powf` used by the Multibrot variant is not expressible over
`ℚ` and is threaded through the embedding as an abstract function parameter
`powf`; every theorem about the generator holds for all values of that
parameter.  A separate, minimal model of non-finite doubles (`CF`) is used
for the claims about `NaN`/`Infinity` behaviour.
-/

namespace FractalRust

/-- A `Complex<f64>` value, modelled by the exact rational contents of its
two double components. -/
structure Cq where
  re : ℚ
  im : ℚ
deriving DecidableEq

/-- Complex addition. -/
def Cq.add (a b : Cq) : Cq := ⟨a.re + b.re, a.im + b.im⟩

/-- Complex multiplication. -/
def Cq.mul (a b : Cq) : Cq := ⟨a.re * b.re - a.im * b.im, a.re * b.im + a.im * b.re⟩

/-- Source `Complex::norm_sqr`. -/
def Cq.normSqr (a : Cq) : ℚ := a.re * a.re + a.im * a.im

/-- Source `Complex::conj`. -/
def Cq.conj (a : Cq) : Cq := ⟨a.re, -a.im⟩

/-- Source `FractalType` from `fractal.rs` lines 4-12. -/
inductive FractalType where
  | Mandelbrot : FractalType
  | Julia : Cq → FractalType
  | BurningShip : FractalType
  | Tricorn : FractalType
  | Multibrot : ℚ → FractalType
  | Custom : String → FractalType
deriving DecidableEq

/-- Source `FractalParams` from `fractal.rs` lines 14-23. -/
structure FractalParams where
  fractal_type : FractalType
  width : ℕ
  height : ℕ
  zoom : ℚ
  center_x : ℚ
  center_y : ℚ
  max_iterations : ℕ
deriving DecidableEq

/-- Source `FractalGenerator` from `fractal.rs` lines 25-30. -/
structure FractalGenerator where
  use_adaptive_sampling : Bool
  performance_mode : Bool
  quality_mode : Bool
  super_sampling : Bool
deriving DecidableEq

/-- Source `FractalGenerator::new` (fractal.rs lines 33-40). -/
def FractalGenerator.new : FractalGenerator :=
  { use_adaptive_sampling := true
    performance_mode := false
    quality_mode := true
    super_sampling := false }

/-- The `while iterations < max_iterations && z.norm_sqr() <= 4.0` loop shared
verbatim (modulo the step expression) by the five per-variant iteration
functions in `fractal.rs`.  `fuel` is the number of iterations still allowed
(`max_iterations - iterations`); the result is the number of steps executed,
i.e. the final value of `iterations` when started at `0` with
`fuel = max_iterations`.  The escape test is abstract (`test`) so that the
same loop can be instantiated over exact rationals and over the non-finite
double model below. -/
def escapeLoop {α : Type} (test : α → Bool) (step : α → α) (z : α) (fuel : ℕ) : ℕ :=
  match fuel with
  | 0 => 0
  | f + 1 => if test z then escapeLoop test step (step z) f + 1 else 0

/-- The escape test `z.norm_sqr() <= 4.0` over exact rationals. -/
def normSqrLe4 (z : Cq) : Bool := decide (z.normSqr ≤ 4)

/-- Source `FractalGenerator::mandelbrot_iterations` (fractal.rs lines 270-280):
`z ← z*z + c` from `z₀ = 0`. -/
def mandelbrot_iterations (c : Cq) (max_iterations : ℕ) : ℕ :=
  escapeLoop normSqrLe4 (fun z => (z.mul z).add c) ⟨0, 0⟩ max_iterations

/-- Source `FractalGenerator::julia_iterations` (fractal.rs lines 282-291):
`z ← z*z + c` from the pixel coordinate. -/
def julia_iterations (z : Cq) (c : Cq) (max_iterations : ℕ) : ℕ :=
  escapeLoop normSqrLe4 (fun w => (w.mul w).add c) z max_iterations

/-- Source `FractalGenerator::burning_ship_iterations` (fractal.rs lines 293-307):
`z ← (|Re z| + i|Im z|)² + c` from `z₀ = 0`. -/
def burning_ship_iterations (c : Cq) (max_iterations : ℕ) : ℕ :=
  escapeLoop normSqrLe4
    (fun z =>
      let za : Cq := ⟨|z.re|, |z.im|⟩
      (za.mul za).add c)
    ⟨0, 0⟩ max_iterations

/-- Source `FractalGenerator::tricorn_iterations` (fractal.rs lines 371-383):
`z ← conj(z)² + c` from `z₀ = 0`. -/
def tricorn_iterations (c : Cq) (max_iterations : ℕ) : ℕ :=
  escapeLoop normSqrLe4
    (fun z =>
      let zc := z.conj
      (zc.mul zc).add c)
    ⟨0, 0⟩ max_iterations

/-- Source `FractalGenerator::multibrot_iterations` (fractal.rs lines 385-396):
`z ← z.powf(power) + c` from `z₀ = 0`.  The transcendental `Complex::powf`
is an abstract parameter of the embedding. -/
def multibrot_iterations (powf : Cq → ℚ → Cq) (c : Cq) (power : ℚ)
    (max_iterations : ℕ) : ℕ :=
  escapeLoop normSqrLe4 (fun z => (powf z power).add c) ⟨0, 0⟩ max_iterations

/-- The iteration-budget transform written inline at the top of
`FractalGenerator::generate_mandelbrot` (fractal.rs lines 130-137).
`params.max_iterations * 3` is a `u32` multiplication, hence the `% 2 ^ 32`
(release-mode wrapping semantics). -/
def effective_max_iterations (g : FractalGenerator) (m : ℕ) : ℕ :=
  if g.performance_mode then max (m / 2) 20
  else if g.quality_mode then min (m * 3 % 2 ^ 32 / 2) 512
  else m

/-- An iteration grid, the `Vec<Vec<u32>>` produced by the generator. -/
abbrev Grid := List (List ℕ)

/-- Source `FractalGenerator::generate_mandelbrot_adaptive` (fractal.rs lines
169-206): compute every 2nd pixel in both axes, then replicate each sample
over its 2×2 destination block. -/
def generate_mandelbrot_adaptive (width height : ℕ) (x_min x_max y_min y_max : ℚ)
    (max_iterations : ℕ) : Grid :=
  let x_scale := (x_max - x_min) / (width : ℚ)
  let y_scale := (y_max - y_min) / (height : ℚ)
  let sample_step := 2
  let sample_width := (width + sample_step - 1) / sample_step
  let sample_height := (height + sample_step - 1) / sample_step
  let sampled_data : Grid :=
    (List.range sample_height).map fun sy =>
      (List.range sample_width).map fun sx =>
        let x := sx * sample_step
        let y := sy * sample_step
        mandelbrot_iterations
          ⟨x_min + (x : ℚ) * x_scale, y_min + (y : ℚ) * y_scale⟩ max_iterations
  (List.range height).map fun y =>
    (List.range width).map fun x =>
      let sx := min (x / sample_step) (sample_width - 1)
      let sy := min (y / sample_step) (sample_height - 1)
      (sampled_data.getD sy []).getD sx 0

/-- Source `FractalGenerator::generate_mandelbrot` (fractal.rs lines 124-167).
The inline budget transform at lines 130-137 is the named definition
`effective_max_iterations`. -/
def generate_mandelbrot (g : FractalGenerator) (p : FractalParams) : Grid :=
  let width := p.width
  let height := p.height
  let zoom := p.zoom
  let center_x := p.center_x
  let center_y := p.center_y
  let max_iterations := effective_max_iterations g p.max_iterations
  let x_min := center_x - 2 / zoom
  let x_max := center_x + 2 / zoom
  let y_min := center_y - 2 / zoom
  let y_max := center_y + 2 / zoom
  let x_scale := (x_max - x_min) / (width : ℚ)
  let y_scale := (y_max - y_min) / (height : ℚ)
  if g.use_adaptive_sampling ∧ 10 < zoom then
    generate_mandelbrot_adaptive width height x_min x_max y_min y_max max_iterations
  else
    (List.range height).map fun (y : ℕ) =>
      (List.range width).map fun (x : ℕ) =>
        mandelbrot_iterations
          ⟨x_min + (x : ℚ) * x_scale, y_min + (y : ℚ) * y_scale⟩ max_iterations

/-- Source `FractalGenerator::generate_julia` (fractal.rs lines 208-237).  The
method reads no generator field: in particular the iteration budget is the
raw `params.max_iterations` (line 214), untouched by the
performance/quality transform. -/
def generate_julia (p : FractalParams) (c : Cq) : Grid :=
  let width := p.width
  let height := p.height
  let zoom := p.zoom
  let center_x := p.center_x
  let center_y := p.center_y
  let max_iterations := p.max_iterations
  let x_min := center_x - 2 / zoom
  let y_min := center_y - 2 / zoom
  let x_max := center_x + 2 / zoom
  let y_max := center_y + 2 / zoom
  let x_scale := (x_max - x_min) / (width : ℚ)
  let y_scale := (y_max - y_min) / (height : ℚ)
  (List.range height).map fun (y : ℕ) =>
    (List.range width).map fun (x : ℕ) =>
      julia_iterations
        ⟨x_min + (x : ℚ) * x_scale, y_min + (y : ℚ) * y_scale⟩ c max_iterations

/-- Source `FractalGenerator::generate_burning_ship` (fractal.rs lines 239-268);
budget is the raw `params.max_iterations`. -/
def generate_burning_ship (p : FractalParams) : Grid :=
  let x_min := p.center_x - 2 / p.zoom
  let y_min := p.center_y - 2 / p.zoom
  let x_max := p.center_x + 2 / p.zoom
  let y_max := p.center_y + 2 / p.zoom
  let x_scale := (x_max - x_min) / (p.width : ℚ)
  let y_scale := (y_max - y_min) / (p.height : ℚ)
  (List.range p.height).map fun (y : ℕ) =>
    (List.range p.width).map fun (x : ℕ) =>
      burning_ship_iterations
        ⟨x_min + (x : ℚ) * x_scale, y_min + (y : ℚ) * y_scale⟩ p.max_iterations

/-- Source `FractalGenerator::generate_tricorn` (fractal.rs lines 309-338);
budget is the raw `params.max_iterations`. -/
def generate_tricorn (p : FractalParams) : Grid :=
  let x_min := p.center_x - 2 / p.zoom
  let y_min := p.center_y - 2 / p.zoom
  let x_max := p.center_x + 2 / p.zoom
  let y_max := p.center_y + 2 / p.zoom
  let x_scale := (x_max - x_min) / (p.width : ℚ)
  let y_scale := (y_max - y_min) / (p.height : ℚ)
  (List.range p.height).map fun (y : ℕ) =>
    (List.range p.width).map fun (x : ℕ) =>
      tricorn_iterations
        ⟨x_min + (x : ℚ) * x_scale, y_min + (y : ℚ) * y_scale⟩ p.max_iterations

/-- Source `FractalGenerator::generate_multibrot` (fractal.rs lines 340-369);
budget is the raw `params.max_iterations`. -/
def generate_multibrot (powf : Cq → ℚ → Cq) (p : FractalParams) (power : ℚ) : Grid :=
  let x_min := p.center_x - 2 / p.zoom
  let y_min := p.center_y - 2 / p.zoom
  let x_max := p.center_x + 2 / p.zoom
  let y_max := p.center_y + 2 / p.zoom
  let x_scale := (x_max - x_min) / (p.width : ℚ)
  let y_scale := (y_max - y_min) / (p.height : ℚ)
  (List.range p.height).map fun (y : ℕ) =>
    (List.range p.width).map fun (x : ℕ) =>
      multibrot_iterations powf
        ⟨x_min + (x : ℚ) * x_scale, y_min + (y : ℚ) * y_scale⟩ power p.max_iterations

/-- Source `FractalGenerator::generate_standard` (fractal.rs lines 66-79);
`Custom` falls back to Mandelbrot. -/
def generate_standard (powf : Cq → ℚ → Cq) (g : FractalGenerator)
    (p : FractalParams) : Grid :=
  match p.fractal_type with
  | FractalType.Mandelbrot => generate_mandelbrot g p
  | FractalType.Julia c => generate_julia p c
  | FractalType.BurningShip => generate_burning_ship p
  | FractalType.Tricorn => generate_tricorn p
  | FractalType.Multibrot power => generate_multibrot powf p power
  | FractalType.Custom _ => generate_mandelbrot g p

/-- The in-bounds check and read of one sample of a 2×2 downsampling block
(fractal.rs lines 105-114): offset `d = (dy, dx)` from the source coordinate
`(src_y, src_x) = (y*2, x*2)`; `none` when the sample is out of bounds. -/
def downsample_sample (data : Grid) (x y : ℕ) (d : ℕ × ℕ) : Option ℕ :=
  let sample_y := y * 2 + d.1
  let sample_x := x * 2 + d.2
  if sample_y < data.length ∧ sample_x < (data.getD sample_y []).length then
    some ((data.getD sample_y []).getD sample_x 0)
  else none

/-- One output cell of `downsample_fractal` (fractal.rs lines 98-117): the
in-bounds samples of the 2×2 source block (`dy` outer, `dx` inner, as in the
source loops), averaged with floor division; `sum` accumulates in a `u32`,
hence the `% 2 ^ 32` (release-mode wrapping semantics). -/
def downsample_cell (data : Grid) (x y : ℕ) : ℕ :=
  let samples :=
    ([(0, 0), (0, 1), (1, 0), (1, 1)] : List (ℕ × ℕ)).filterMap (downsample_sample data x y)
  if 0 < samples.length then samples.sum % 2 ^ 32 / samples.length else 0

/-- Source `FractalGenerator::downsample_fractal` (fractal.rs lines 93-122). -/
def downsample_fractal (data : Grid) (target_width target_height : ℕ) : Grid :=
  (List.range target_height).map fun y =>
    (List.range target_width).map fun x =>
      downsample_cell data x y

/-- Source `FractalGenerator::generate_with_super_sampling` (fractal.rs lines
81-91): generate at doubled resolution with `generate_standard`, then
box-downsample back to the requested size. -/
def generate_with_super_sampling (powf : Cq → ℚ → Cq) (g : FractalGenerator)
    (p : FractalParams) : Grid :=
  let super_params : FractalParams := { p with width := p.width * 2, height := p.height * 2 }
  let super_data := generate_standard powf g super_params
  downsample_fractal super_data p.width p.height

/-- Source `FractalGenerator::generate` (fractal.rs lines 58-64). -/
def generate (powf : Cq → ℚ → Cq) (g : FractalGenerator) (p : FractalParams) : Grid :=
  if g.super_sampling then generate_with_super_sampling powf g p
  else generate_standard powf g p

/-! ### Non-finite double model

For the claims about `NaN`/`Infinity` behaviour, a double is modelled as
`Option ℚ`: `some q` is a finite value with exact contents `q`, `none` is any
non-finite value (`NaN`, `+∞`, `-∞`).  Arithmetic propagates non-finiteness;
the IEEE-754 facts used are that `x <= 4.0` is false when `x` is `NaN` or
`+∞` (the norm square `re*re + im*im` is never `-∞`), which is exactly how
the `while` condition in `fractal.rs` sees a degenerate iterate. -/

/-- A double: a finite exact value or a non-finite one. -/
abbrev FD := Option ℚ

/-- Addition on doubles: non-finiteness propagates. -/
def FD.add (a b : FD) : FD :=
  match a, b with
  | some x, some y => some (x + y)
  | _, _ => none

/-- A `Complex<f64>` whose components may be non-finite. -/
structure CF where
  re : FD
  im : FD
deriving DecidableEq

/-- Complex addition on possibly non-finite doubles. -/
def CF.add (a b : CF) : CF := ⟨FD.add a.re b.re, FD.add a.im b.im⟩

/-- The loop test `z.norm_sqr() <= 4.0` on possibly non-finite doubles: if
either component is non-finite the norm square is `NaN` or `+∞` and the
IEEE comparison is false. -/
def normSqrLe4F (z : CF) : Bool :=
  match z.re, z.im with
  | some a, some b => decide (a * a + b * b ≤ 4)
  | _, _ => false

/-- The Multibrot step `z ← z.powf(power) + c` on possibly non-finite
doubles; `powf` stays an abstract parameter. -/
def multibrotStepF (powf : CF → ℚ → CF) (c : CF) (power : ℚ) (z : CF) : CF :=
  CF.add (powf z power) c

/-- Source `FractalGenerator::multibrot_iterations` over the non-finite double
model: the same `while iterations < max && z.norm_sqr() <= 4.0` loop. -/
def multibrot_iterationsF (powf : CF → ℚ → CF) (c : CF) (power : ℚ)
    (max_iterations : ℕ) : ℕ :=
  escapeLoop normSqrLe4F (multibrotStepF powf c power) ⟨some 0, some 0⟩ max_iterations

/-! ### Cache (`src/app.rs`) -/

/-- Floor of a rational, computed without any well-founded recursion
(`Int.fdiv` is floor division and the denominator is positive). -/
def ratFloor (q : ℚ) : ℤ := q.num.fdiv q.den

/-- Round a rational to the nearest integer, ties to even: the rounding Rust
applies when formatting an `f64` value with a fixed number of decimals
(`{:.6}` / `{:.3}`). -/
def roundHalfEven (q : ℚ) : ℤ :=
  let f := ratFloor q
  let frac := q - (f : ℚ)
  if frac < 1 / 2 then f
  else if 1 / 2 < frac then f + 1
  else if f % 2 = 0 then f else f + 1

/-- The text printed by `{:.digits}` for a double: Rust formats the
magnitude to `digits` decimal places and prepends a `-` sign whenever the
value is negative — the sign is kept even when the rounded magnitude is
zero, so `-2⁻²²` prints as `-0.000000` while `2⁻²²` prints as `0.000000`. -/
structure FixedFmt where
  neg : Bool
  magnitude : ℤ
deriving DecidableEq

/-- The text printed by `{:.digits}` for a double with exact contents `q`:
the printed sign, and the printed digit string as the integer
`round(|q| * 10 ^ digits)` (the string is this integer with a decimal
point inserted; two values print equally iff sign and rounded magnitude
agree). -/
def fmtFixed (digits : ℕ) (q : ℚ) : FixedFmt :=
  ⟨decide (q < 0),
    roundHalfEven ((if q < 0 then -q else q) * ((10 ^ digits : ℕ) : ℚ))⟩

/-- Modelled from the spec: the claim's reading of "rounded to N decimal
digits" — the signed mathematically rounded value, which unlike the
printed text keeps no sign on a zero magnitude.  Used only to state the
claim for comparison with the formatter above. -/
def roundedValue (digits : ℕ) (q : ℚ) : ℤ :=
  roundHalfEven (q * ((10 ^ digits : ℕ) : ℚ))

/-- The content of the key string built by `App::create_cache_key` (app.rs
lines 819-830): the `format!` result is modelled by the tuple of the
formatted components, in order — the `{:?}` of the fractal type (which
includes its parameters), width, height, the centre coordinates at 6
decimal digits, the zoom at 3, and `max_iterations`. -/
structure CacheKey where
  fractal_type : FractalType
  width : ℕ
  height : ℕ
  center_x_6 : FixedFmt
  center_y_6 : FixedFmt
  zoom_3 : FixedFmt
  max_iterations : ℕ
deriving DecidableEq

/-- Source `App::create_cache_key` (app.rs lines 819-830). -/
def create_cache_key (p : FractalParams) : CacheKey :=
  { fractal_type := p.fractal_type
    width := p.width
    height := p.height
    center_x_6 := fmtFixed 6 p.center_x
    center_y_6 := fmtFixed 6 p.center_y
    zoom_3 := fmtFixed 3 p.zoom
    max_iterations := p.max_iterations }

/-- The fractal cache, a `HashMap<String, Vec<Vec<u32>>>`, modelled as an
association list with no duplicate keys (`cacheInsert` preserves this). -/
abbrev Cache := List (CacheKey × Grid)

/-- Source `HashMap::get`. -/
def cacheGet (cache : Cache) (key : CacheKey) : Option Grid :=
  match cache.find? (fun e => e.1 == key) with
  | some e => some e.2
  | none => none

/-- Source `HashMap::insert`: replace the entry if the key is present, otherwise
add a new entry. -/
def cacheInsert (cache : Cache) (key : CacheKey) (grid : Grid) : Cache :=
  if (cacheGet cache key).isSome then
    cache.map (fun e => if e.1 == key then (key, grid) else e)
  else
    (key, grid) :: cache

/-- The cache interaction of one `App::regenerate_fractal_with_size` call
(app.rs lines 359-390): look the key up; on a hit the cache is left
untouched; on a miss the freshly generated grid is inserted only when the
current size is strictly below 50, while a size of at least 100 triggers a
full `clear` (and no insertion).  Only the updated cache matters to the
cache claims, so the served grid is not returned here. -/
def regenerate_cache_step (cache : Cache) (key : CacheKey) (grid : Grid) : Cache :=
  if (cacheGet cache key).isSome then cache
  else
    if cache.length < 50 then cacheInsert cache key grid
    else if 100 ≤ cache.length then []
    else cache

/-- A sequence of `regenerate` calls acting on the cache, each identified by
the key it computes and the grid the generator returns for it. -/
def regenerate_cache_run (reqs : List (CacheKey × Grid)) : Cache :=
  reqs.foldl (fun cache r => regenerate_cache_step cache r.1 r.2) []

/-! ### Renderer (`src/renderer.rs`) -/

/-- The `ratatui` colours used by the renderer. -/
inductive TColor where
  | Black | DarkGray | Gray | LightBlue | Blue | Cyan | LightCyan
  | Green | LightGreen | Yellow | LightYellow | Red | LightRed
  | Magenta | LightMagenta | White
deriving DecidableEq

/-- One arm of a `match iterations { lo..=hi => (glyph, color) }` range
table; `hi = none` is the final `_` arm, which (the earlier arms tiling an
initial segment exactly) matches every count at or above `lo`. -/
structure Bucket where
  lo : ℕ
  hi : Option ℕ
  glyph : Char
  color : TColor
deriving DecidableEq

/-- Whether a count falls in a bucket's range. -/
def bucketMatches (b : Bucket) (n : ℕ) : Bool :=
  match b.hi with
  | some h => decide (b.lo ≤ n ∧ n ≤ h)
  | none => decide (b.lo ≤ n)

/-- First matching bucket, as in an ordered Rust `match`. -/
def tableLookup (t : List Bucket) (n : ℕ) : Char × TColor :=
  match t.find? (fun b => bucketMatches b n) with
  | some b => (b.glyph, b.color)
  | none => ('?', TColor.Black)

/-- How many buckets of a table match a count (the claims demand exactly
one: no gaps, no overlaps). -/
def bucketMatchCount (t : List Bucket) (n : ℕ) : ℕ :=
  (t.filter (fun b => bucketMatches b n)).length

/-- The range table of
`TerminalRenderer::iterations_to_high_quality_char_and_color`
(renderer.rs lines 174-205). -/
def high_quality_table : List Bucket :=
  [⟨0, some 1, ' ', TColor.Black⟩,
   ⟨2, some 3, '·', TColor.DarkGray⟩,
   ⟨4, some 5, '░', TColor.DarkGray⟩,
   ⟨6, some 8, '▒', TColor.Gray⟩,
   ⟨9, some 12, '▓', TColor.LightBlue⟩,
   ⟨13, some 16, '█', TColor.Blue⟩,
   ⟨17, some 20, '▉', TColor.Cyan⟩,
   ⟨21, some 25, '▊', TColor.LightCyan⟩,
   ⟨26, some 30, '▋', TColor.Green⟩,
   ⟨31, some 35, '▌', TColor.LightGreen⟩,
   ⟨36, some 40, '▍', TColor.Yellow⟩,
   ⟨41, some 45, '▎', TColor.LightYellow⟩,
   ⟨46, some 50, '▏', TColor.Red⟩,
   ⟨51, some 60, '▕', TColor.LightRed⟩,
   ⟨61, some 70, '▔', TColor.Magenta⟩,
   ⟨71, some 80, '▁', TColor.LightMagenta⟩,
   ⟨81, some 90, '▂', TColor.White⟩,
   ⟨91, some 100, '▃', TColor.LightBlue⟩,
   ⟨101, some 120, '▄', TColor.Blue⟩,
   ⟨121, some 140, '▅', TColor.Cyan⟩,
   ⟨141, some 160, '▆', TColor.Green⟩,
   ⟨161, some 180, '▇', TColor.Yellow⟩,
   ⟨181, some 200, '█', TColor.Red⟩,
   ⟨201, some 220, '▓', TColor.Magenta⟩,
   ⟨221, some 240, '▒', TColor.LightMagenta⟩,
   ⟨241, some 255, '░', TColor.White⟩,
   ⟨256, none, '█', TColor.LightMagenta⟩]

/-- The range table of
`TerminalRenderer::iterations_to_standard_char_and_color`
(renderer.rs lines 207-225). -/
def standard_table : List Bucket :=
  [⟨0, some 2, ' ', TColor.Black⟩,
   ⟨3, some 5, '░', TColor.DarkGray⟩,
   ⟨6, some 10, '▒', TColor.Gray⟩,
   ⟨11, some 15, '▓', TColor.White⟩,
   ⟨16, some 20, '█', TColor.Blue⟩,
   ⟨21, some 30, '█', TColor.Cyan⟩,
   ⟨31, some 40, '█', TColor.LightGreen⟩,
   ⟨41, some 50, '█', TColor.Yellow⟩,
   ⟨51, some 60, '█', TColor.LightYellow⟩,
   ⟨61, some 70, '█', TColor.Red⟩,
   ⟨71, some 80, '█', TColor.LightRed⟩,
   ⟨81, some 90, '▓', TColor.Magenta⟩,
   ⟨91, some 99, '*', TColor.LightRed⟩,
   ⟨100, none, '#', TColor.LightMagenta⟩]

/-- The range table of
`TerminalRenderer::iterations_to_ascii_char_and_color`
(renderer.rs lines 227-243); the only table on the non-unicode path,
whatever the detail level. -/
def ascii_table : List Bucket :=
  [⟨0, some 2, ' ', TColor.Black⟩,
   ⟨3, some 5, '.', TColor.DarkGray⟩,
   ⟨6, some 10, ':', TColor.Gray⟩,
   ⟨11, some 15, ';', TColor.White⟩,
   ⟨16, some 20, '!', TColor.Blue⟩,
   ⟨21, some 30, '|', TColor.Cyan⟩,
   ⟨31, some 40, '$', TColor.Green⟩,
   ⟨41, some 50, '@', TColor.Yellow⟩,
   ⟨51, some 70, '&', TColor.Red⟩,
   ⟨71, some 90, '%', TColor.Magenta⟩,
   ⟨91, some 99, '*', TColor.LightRed⟩,
   ⟨100, none, '#', TColor.LightMagenta⟩]

/-- Source `TerminalRenderer` from `renderer.rs` lines 6-14. -/
structure TerminalRenderer where
  use_colors : Bool
  use_unicode : Bool
  use_fast_rendering : Bool
  quality_mode : Bool
  super_sampling : Bool
  last_rendered_data : Option Grid
deriving DecidableEq

/-- Source `TerminalRenderer::new` (renderer.rs lines 17-26). -/
def TerminalRenderer.new : TerminalRenderer :=
  { use_colors := true
    use_unicode := true
    use_fast_rendering := false
    quality_mode := true
    super_sampling := false
    last_rendered_data := none }

/-- Source `TerminalRenderer::iterations_to_high_quality_char_and_color`. -/
def iterations_to_high_quality_char_and_color (n : ℕ) : Char × TColor :=
  tableLookup high_quality_table n

/-- Source `TerminalRenderer::iterations_to_standard_char_and_color`. -/
def iterations_to_standard_char_and_color (n : ℕ) : Char × TColor :=
  tableLookup standard_table n

/-- Source `TerminalRenderer::iterations_to_ascii_char_and_color`. -/
def iterations_to_ascii_char_and_color (n : ℕ) : Char × TColor :=
  tableLookup ascii_table n

/-- Source `TerminalRenderer::iterations_to_unicode_char_and_color`
(renderer.rs lines 165-172). -/
def iterations_to_unicode_char_and_color (r : TerminalRenderer) (n : ℕ) : Char × TColor :=
  if r.quality_mode then iterations_to_high_quality_char_and_color n
  else iterations_to_standard_char_and_color n

/-- Source `TerminalRenderer::iterations_to_char_and_color`
(renderer.rs lines 157-163): the non-unicode path never consults
`quality_mode`. -/
def iterations_to_char_and_color (r : TerminalRenderer) (n : ℕ) : Char × TColor :=
  if r.use_unicode then iterations_to_unicode_char_and_color r n
  else iterations_to_ascii_char_and_color n

/-- A rendered cell: a `ratatui` `Span` of one character, styled with a
foreground colour (`Span::styled`) or unstyled (`Span::raw`).  The blank
placeholder written for an unchanged cell under differential rendering is
`Span::raw(" ")`, i.e. `(' ', none)`. -/
abbrev RSpan := Char × Option TColor

/-- Source `TerminalRenderer::render_to_text` (renderer.rs lines 40-94).  Returns
the rendered lines and the updated renderer (the method stores the grid in
`last_rendered_data` when `use_fast_rendering` is on). -/
def render_to_text (r : TerminalRenderer) (fractal_data : Grid)
    (target_width target_height : ℕ) : List (List RSpan) × TerminalRenderer :=
  if fractal_data = [] then
    (["No fractal data".toList.map (fun c => (c, (none : Option TColor)))], r)
  else
    let data_height := fractal_data.length
    let data_width := (fractal_data.getD 0 []).length
    let use_differential := r.use_fast_rendering &&
      (match r.last_rendered_data with
       | some last => last.length == data_height && (last.getD 0 []).length == data_width
       | none => false)
    let lines := (List.range (min target_height data_height)).map fun y =>
      (List.range (min target_width data_width)).map fun x =>
        let iterations := (fractal_data.getD y []).getD x 0
        if use_differential &&
            (match r.last_rendered_data with
             | some last_data => (last_data.getD y []).getD x 0 == iterations
             | none => false) then
          ((' ', none) : RSpan)
        else
          let cc := iterations_to_char_and_color r iterations
          if r.use_colors then (cc.1, some cc.2) else (cc.1, none)
    (lines, if r.use_fast_rendering then { r with last_rendered_data := some fractal_data } else r)

/-! ### Derived notions and concrete instances used by the claims -/

/-- The iteration budget a variant is actually generated with: the
performance/quality transform applies to Mandelbrot and to the Custom
fallback (both go through `generate_mandelbrot`); Julia, Burning Ship,
Tricorn and Multibrot use the raw `max_iterations`. -/
def variant_budget (g : FractalGenerator) (t : FractalType) (m : ℕ) : ℕ :=
  match t with
  | FractalType.Mandelbrot => effective_max_iterations g m
  | FractalType.Custom _ => effective_max_iterations g m
  | _ => m

/-- Whether a variant's generation path applies the performance/quality
budget transform (i.e. goes through `generate_mandelbrot`). -/
def transform_applies : FractalType → Bool
  | FractalType.Mandelbrot => true
  | FractalType.Custom _ => true
  | _ => false

/-- A concrete stand-in for the abstract `Complex::powf` parameter, used
when a claim is evaluated at an input whose generation never calls it. -/
def powf_id : Cq → ℚ → Cq := fun z _ => z

/-- The spec's claim that a non-finite iterate makes the Multibrot cell
report the full effective budget (clamp to "did not escape"): for every
`powf` behaviour, if the iterates pass the norm test up to step `k` and the
iterate at step `k < max` has a non-finite component, the cell reports
`max`. -/
def multibrotNanClaim : Prop :=
  ∀ (powf : CF → ℚ → CF) (c : CF) (power : ℚ) (m k : ℕ),
    k < m →
    (∀ j < k, normSqrLe4F ((multibrotStepF powf c power)^[j] ⟨some 0, some 0⟩) = true) →
    (((multibrotStepF powf c power)^[k] ⟨some 0, some 0⟩).re = none ∨
      ((multibrotStepF powf c power)^[k] ⟨some 0, some 0⟩).im = none) →
    multibrot_iterationsF powf c power m = m

/-- A `powf` behaviour producing a non-finite result, as a pathological
Multibrot power does (the spec itself grants that this happens). -/
def powf_nan : CF → ℚ → CF := fun _ _ => ⟨none, none⟩

/-- The spec's claim that the quantizer has four independent
(palette × detail) tables: for either palette, toggling the detail flag
changes the glyph/colour of some count. -/
def fourDistinctTablesClaim : Prop :=
  ∀ u : Bool, ∃ n : ℕ,
    iterations_to_char_and_color
      { TerminalRenderer.new with use_unicode := u, quality_mode := true } n ≠
    iterations_to_char_and_color
      { TerminalRenderer.new with use_unicode := u, quality_mode := false } n

/-- A generator with performance mode on and every sampling option off. -/
def genPerf : FractalGenerator := ⟨false, true, false, false⟩

/-- A 1×1 Julia request whose only pixel is the plane origin (centre `(2,2)`,
zoom `1`, so `x_min = y_min = 0`) with `c = 0`: the iterate stays at `0`
forever and the cell reports the full budget of `100`.  All values involved
are exactly representable doubles and every operation is exact, so the
rational evaluation coincides with the `f64` evaluation. -/
def pJuliaPerf : FractalParams := ⟨FractalType.Julia ⟨0, 0⟩, 1, 1, 1, 2, 2, 100⟩

/-- The same request with a budget of `60`, for the budget-transform claim. -/
def pJuliaPerf60 : FractalParams := ⟨FractalType.Julia ⟨0, 0⟩, 1, 1, 1, 2, 2, 60⟩

/-- A generator with adaptive sampling on and every other option off. -/
def genAdaptive : FractalGenerator := ⟨true, false, false, false⟩

/-- A 2×2 Julia request at zoom `16 > 10` with `c = 2`: the four pixels are
`(-1/8, -1/8)`, `(0, -1/8)`, `(-1/8, 0)`, `(0, 0)` and escape after `1`,
`2`, `1`, `2` iterations respectively, so the single 2×2 block of the output
is not uniform.  Every number that occurs is a dyadic rational with a short
significand, so the exact rational evaluation coincides with the `f64`
evaluation step for step. -/
def pJuliaZoom : FractalParams := ⟨FractalType.Julia ⟨2, 0⟩, 2, 2, 16, 0, 0, 10⟩

/-- A Mandelbrot request at zoom `16 > 10`, used to exercise the adaptive
path of the amended block-uniformity statement. -/
def pMandelZoom : FractalParams := ⟨FractalType.Mandelbrot, 2, 2, 16, 0, 0, 10⟩

/-- The key `App::create_cache_key` derives from a request differing from a
fixed base request only in `max_iterations = i`. -/
def mkCacheKey (i : ℕ) : CacheKey :=
  { fractal_type := FractalType.Mandelbrot
    width := 1
    height := 1
    center_x_6 := ⟨false, 0⟩
    center_y_6 := ⟨false, 0⟩
    zoom_3 := ⟨false, 1000⟩
    max_iterations := i }

/-- 101 cache-miss requests with pairwise distinct keys: enough to cross the
claimed hard capacity of 100 if inserts were not stopped at the soft ceiling
of 50. -/
def cacheRun101 : List (CacheKey × Grid) :=
  (List.range 101).map fun i => (mkCacheKey i, ([[i]] : Grid))

/-- A cache holding exactly 50 entries. -/
def cache50 : Cache := (List.range 50).map fun i => (mkCacheKey i, ([[i]] : Grid))

/-- A cache holding exactly 100 entries. -/
def cache100 : Cache := (List.range 100).map fun i => (mkCacheKey i, ([[i]] : Grid))

/-- Parameters agreeing except for sub-precision floating-point noise in
`center_x` (`1/3` versus `0.33333349`, both rounding to `0.333333` at 6
decimal digits). -/
def pKeyA : FractalParams := ⟨FractalType.Mandelbrot, 80, 24, 1, 1 / 3, 0, 256⟩

/-- See `pKeyA`. -/
def pKeyB : FractalParams :=
  ⟨FractalType.Mandelbrot, 80, 24, 1, 33333349 / 100000000, 0, 256⟩

/-- Parameters whose centres straddle zero by sub-precision noise:
`-2⁻²²` and `2⁻²²` (both exactly representable doubles) round to magnitude
`0` at 6 decimal digits, yet `{:.6}` prints `-0.000000` for the first and
`0.000000` for the second. -/
def pKeySignA : FractalParams :=
  ⟨FractalType.Mandelbrot, 80, 24, 1, -(1 / 4194304), 0, 256⟩

/-- See `pKeySignA`. -/
def pKeySignB : FractalParams :=
  ⟨FractalType.Mandelbrot, 80, 24, 1, 1 / 4194304, 0, 256⟩

/-! ### Helper lemmas -/

/-- The escape loop executes at most `fuel` steps, so every iteration count
is bounded by the budget the loop was started with. -/
theorem escapeLoop_le {α : Type} (test : α → Bool) (step : α → α) :
    ∀ (fuel : ℕ) (z : α), escapeLoop test step z fuel ≤ fuel := by
  intro fuel
  induction fuel with
  | zero => intro z; simp [escapeLoop]
  | succ f ih =>
    intro z
    simp only [escapeLoop]
    split
    · exact Nat.succ_le_succ (ih (step z))
    · exact Nat.zero_le _

/-- If the iterates pass the loop test up to (excluding) step `k` and fail it
at step `k`, the escape loop returns `k` capped at the budget: the loop stops
at the first failing test, whatever its cause. -/
theorem escapeLoop_first_fail {α : Type} (test : α → Bool) (step : α → α) :
    ∀ (fuel k : ℕ) (z : α),
      (∀ j < k, test (step^[j] z) = true) → test (step^[k] z) = false →
      escapeLoop test step z fuel = min k fuel := by
  intro fuel
  induction fuel with
  | zero => intro k z _ _; simp [escapeLoop]
  | succ f ih =>
    intro k z hpass hfail
    match k with
    | 0 =>
      simp only [Function.iterate_zero_apply] at hfail
      simp [escapeLoop, hfail]
    | k' + 1 =>
      have h0 : test z = true := by
        have := hpass 0 (Nat.succ_pos k')
        simpa using this
      have hpass' : ∀ j < k', test (step^[j] (step z)) = true := by
        intro j hj
        have := hpass (j + 1) (Nat.succ_lt_succ hj)
        simpa [Function.iterate_succ_apply] using this
      have hfail' : test (step^[k'] (step z)) = false := by
        simpa [Function.iterate_succ_apply] using hfail
      simp only [escapeLoop, h0, if_true]
      rw [ih k' (step z) hpass' hfail']
      omega

/-- Reading a cell of a grid built with `List.range`/`map` at an in-range
index gives the generating function's value there. -/
theorem getD_range_map {α : Type} (f : ℕ → α) (n i : ℕ) (h : i < n) (d : α) :
    ((List.range n).map f).getD i d = f i := by
  rw [List.getD_eq_getElem?_getD, List.getElem?_map, List.getElem?_range h]
  rfl

/-- A `getD` with default `0` out of a list of naturals all bounded by `B`
is bounded by `B`. -/
theorem getD_le_of_forall_le {l : List ℕ} {B : ℕ} (h : ∀ v ∈ l, v ≤ B) (i : ℕ) :
    l.getD i 0 ≤ B := by
  rw [List.getD_eq_getElem?_getD]
  cases hv : l[i]? with
  | none => simp
  | some v =>
    have : v ∈ l := List.getElem?_mem hv
    simpa using h v this

/-- Dimensions of a grid built as a `range`/`map` of `range`/`map`. -/
theorem rangeGrid_shape {f : ℕ → ℕ → ℕ} {h w : ℕ}
    {grid : Grid} (hg : grid = (List.range h).map fun y => (List.range w).map (f y)) :
    grid.length = h ∧ ∀ row ∈ grid, row.length = w := by
  subst hg
  constructor
  · simp
  · intro row hrow
    rcases List.mem_map.1 hrow with ⟨y, _, rfl⟩
    simp

/-- Every cell of a grid built as a `range`/`map` of `range`/`map` of a
function with bounded values is bounded. -/
theorem rangeGrid_cell_le {f : ℕ → ℕ → ℕ} {h w B : ℕ}
    (hf : ∀ y x, f y x ≤ B) :
    ∀ row ∈ (List.range h).map (fun y => (List.range w).map (f y)),
      ∀ v ∈ row, v ≤ B := by
  intro row hrow v hv
  rcases List.mem_map.1 hrow with ⟨y, _, rfl⟩
  rcases List.mem_map.1 hv with ⟨x, _, rfl⟩
  exact hf y x

/-- An in-range `getD` returns a member of the list. -/
theorem getD_mem {α : Type} {l : List α} {i : ℕ} (h : i < l.length) (d : α) :
    l.getD i d ∈ l := by
  rw [List.getD_eq_getElem?_getD]
  rw [List.getElem?_eq_getElem h]
  exact List.getElem_mem _

/-- A doubly-indexed `getD` read out of a grid of bounded cells is bounded
(out-of-range reads default to `0 ≤ B`). -/
theorem grid_getD_le {grid : Grid} {B : ℕ}
    (h : ∀ row ∈ grid, ∀ v ∈ row, v ≤ B) (i j : ℕ) :
    (grid.getD i []).getD j 0 ≤ B := by
  by_cases hi : i < grid.length
  · exact getD_le_of_forall_le (h _ (getD_mem hi [])) j
  · have hrow : grid.getD i [] = [] := by
      rw [List.getD_eq_getElem?_getD, List.getElem?_eq_none (by omega)]
      rfl
    rw [hrow]
    simp

/-- Every sample collected by `downsample_cell` is a cell of the source
grid. -/
theorem downsample_sample_mem {data : Grid} {x y : ℕ} {d : ℕ × ℕ} {v : ℕ}
    (h : downsample_sample data x y d = some v) :
    ∃ row ∈ data, v ∈ row := by
  simp only [downsample_sample] at h
  split at h
  · rename_i hb
    obtain ⟨hy, hx⟩ := hb
    obtain rfl : (data.getD (y * 2 + d.1) []).getD (x * 2 + d.2) 0 = v :=
      Option.some.inj h
    exact ⟨data.getD (y * 2 + d.1) [], getD_mem hy [], getD_mem hx 0⟩
  · exact absurd h (by simp)

/-- A downsampled cell of a grid of cells bounded by `B` is bounded by `B`:
the wrapped sum of the collected samples is at most `count * B`, and floor
division by `count` cancels. -/
theorem downsample_cell_le {data : Grid} {B : ℕ}
    (h : ∀ row ∈ data, ∀ v ∈ row, v ≤ B) (x y : ℕ) :
    downsample_cell data x y ≤ B := by
  simp only [downsample_cell]
  set samples :=
    ([(0, 0), (0, 1), (1, 0), (1, 1)] : List (ℕ × ℕ)).filterMap
      (downsample_sample data x y) with hsamples
  have hmem : ∀ v ∈ samples, v ≤ B := by
    intro v hv
    rcases List.mem_filterMap.1 hv with ⟨d, _, hd⟩
    rcases downsample_sample_mem hd with ⟨row, hrow, hvrow⟩
    exact h row hrow v hvrow
  split
  · rename_i hpos
    have hsum : samples.sum ≤ samples.length * B := by
      have := List.sum_le_card_nsmul samples B hmem
      simpa [smul_eq_mul] using this
    calc samples.sum % 2 ^ 32 / samples.length
        ≤ samples.sum / samples.length :=
          Nat.div_le_div_right (Nat.mod_le _ _)
      _ ≤ samples.length * B / samples.length := Nat.div_le_div_right hsum
      _ = B := Nat.mul_div_cancel_left B hpos
  · exact Nat.zero_le _

/-- Whether a bucket list tiles `[lo, ∞)`: consecutive bounded ranges with
no gap, closed by a final unbounded arm. -/
def tilesFrom (lo : ℕ) : List Bucket → Bool
  | [] => false
  | [b] => b.lo == lo && b.hi == none
  | b :: rest =>
    match b.hi with
    | some h => b.lo == lo && decide (lo ≤ h) && tilesFrom (h + 1) rest
    | none => false

/-- Counts below a tiling's base match no bucket. -/
theorem tilesFrom_no_match :
    ∀ (t : List Bucket) (lo n : ℕ), tilesFrom lo t = true → n < lo →
      bucketMatchCount t n = 0 := by
  intro t
  induction t with
  | nil => intro lo n h _; simp [tilesFrom] at h
  | cons b rest ih =>
    intro lo n h hn
    match rest, h with
    | [], h =>
      simp only [tilesFrom, Bool.and_eq_true, beq_iff_eq] at h
      obtain ⟨hlo, hhi⟩ := h
      simp [bucketMatchCount, bucketMatches, hhi, hlo, Nat.not_le.2 hn]
    | r :: rs, h =>
      simp only [tilesFrom] at h
      cases hhi : b.hi with
      | none => rw [hhi] at h; exact absurd h (by simp)
      | some hi =>
        rw [hhi] at h
        simp only [Bool.and_eq_true, beq_iff_eq, decide_eq_true_eq] at h
        obtain ⟨⟨hlo, hle⟩, htiles⟩ := h
        have hr := ih (hi + 1) n htiles (by omega)
        simp only [bucketMatchCount, List.filter_cons] at hr ⊢
        have hb : bucketMatches b n = false := by
          simp [bucketMatches, hhi, hlo]
          omega
        rw [hb]
        exact hr

/-- Counts at or above a tiling's base match exactly one bucket: the range
tables have no gaps and no overlaps. -/
theorem tilesFrom_one_match :
    ∀ (t : List Bucket) (lo n : ℕ), tilesFrom lo t = true → lo ≤ n →
      bucketMatchCount t n = 1 := by
  intro t
  induction t with
  | nil => intro lo n h _; simp [tilesFrom] at h
  | cons b rest ih =>
    intro lo n h hn
    match rest, h with
    | [], h =>
      simp only [tilesFrom, Bool.and_eq_true, beq_iff_eq] at h
      obtain ⟨hlo, hhi⟩ := h
      simp [bucketMatchCount, List.filter_cons, bucketMatches, hhi, hlo, hn]
    | r :: rs, h =>
      simp only [tilesFrom] at h
      cases hhi : b.hi with
      | none => rw [hhi] at h; exact absurd h (by simp)
      | some hi =>
        rw [hhi] at h
        simp only [Bool.and_eq_true, beq_iff_eq, decide_eq_true_eq] at h
        obtain ⟨⟨hlo, hle⟩, htiles⟩ := h
        by_cases hcase : n ≤ hi
        · have hb : bucketMatches b n = true := by
            simp [bucketMatches, hhi, hlo]
            omega
          have hr := tilesFrom_no_match (r :: rs) (hi + 1) n htiles (by omega)
          simp only [bucketMatchCount] at hr ⊢
          have hr0 : List.filter (fun b => bucketMatches b n) (r :: rs) = [] :=
            List.length_eq_zero.mp hr
          simp [List.filter_cons, hb, hr0]
        · have hb : bucketMatches b n = false := by
            simp [bucketMatches, hhi, hlo]
            omega
          have hr := ih (hi + 1) n htiles (by omega)
          simp only [bucketMatchCount] at hr ⊢
          rw [List.filter_cons, if_neg (by simp [hb])]
          exact hr

/-- The three glyph tables in the source each tile `[0, ∞)`. -/
theorem tables_tile :
    tilesFrom 0 high_quality_table = true ∧ tilesFrom 0 standard_table = true ∧
      tilesFrom 0 ascii_table = true := by
  refine ⟨?_, ?_, ?_⟩ <;> decide

/-- Inserting with `cacheInsert` grows the size by one exactly on fresh keys. -/
theorem cacheInsert_length (cache : Cache) (k : CacheKey) (g : Grid) :
    (cacheInsert cache k g).length =
      if (cacheGet cache k).isSome then cache.length else cache.length + 1 := by
  unfold cacheInsert
  split
  · rename_i h; simp [h]
  · rename_i h; simp [h]

/-- One `regenerate` call keeps the cache at or below the soft ceiling. -/
theorem regenerate_cache_step_le (cache : Cache) (k : CacheKey) (g : Grid)
    (h : cache.length ≤ 50) : (regenerate_cache_step cache k g).length ≤ 50 := by
  unfold regenerate_cache_step
  split
  · exact h
  · split
    · rename_i hmiss hlt
      rw [cacheInsert_length]
      simp only [hmiss, Bool.false_eq_true]
      split
      · exact h
      · omega
    · split
      · simp
      · exact h

/-- Every per-variant iteration count is bounded by the budget the loop was
started with. -/
theorem iteration_counts_le (c z : Cq) (powf : Cq → ℚ → Cq) (power : ℚ) (m : ℕ) :
    mandelbrot_iterations c m ≤ m ∧ julia_iterations z c m ≤ m ∧
      burning_ship_iterations c m ≤ m ∧ tricorn_iterations c m ≤ m ∧
      multibrot_iterations powf c power m ≤ m :=
  ⟨escapeLoop_le _ _ _ _, escapeLoop_le _ _ _ _, escapeLoop_le _ _ _ _,
    escapeLoop_le _ _ _ _, escapeLoop_le _ _ _ _⟩

/-- The adaptive Mandelbrot grid has the full requested dimensions. -/
theorem generate_mandelbrot_adaptive_shape (w h : ℕ) (x1 x2 y1 y2 : ℚ) (mi : ℕ) :
    (generate_mandelbrot_adaptive w h x1 x2 y1 y2 mi).length = h ∧
      ∀ row ∈ generate_mandelbrot_adaptive w h x1 x2 y1 y2 mi, row.length = w := by
  simp only [generate_mandelbrot_adaptive]
  exact rangeGrid_shape rfl

/-- Every adaptive Mandelbrot cell is a sampled iteration count (or a
defaulted read), hence bounded by the budget. -/
theorem generate_mandelbrot_adaptive_le (w h : ℕ) (x1 x2 y1 y2 : ℚ) (mi : ℕ) :
    ∀ row ∈ generate_mandelbrot_adaptive w h x1 x2 y1 y2 mi, ∀ v ∈ row, v ≤ mi := by
  simp only [generate_mandelbrot_adaptive]
  refine rangeGrid_cell_le ?_
  intro y x
  refine grid_getD_le ?_ _ _
  exact rangeGrid_cell_le fun sy sx => escapeLoop_le _ _ _ _

/-- The grid of `generate_mandelbrot` (either branch) has the requested dimensions. -/
theorem generate_mandelbrot_shape (g : FractalGenerator) (p : FractalParams) :
    (generate_mandelbrot g p).length = p.height ∧
      ∀ row ∈ generate_mandelbrot g p, row.length = p.width := by
  simp only [generate_mandelbrot]
  split
  · exact generate_mandelbrot_adaptive_shape _ _ _ _ _ _ _
  · exact rangeGrid_shape rfl

/-- All `generate_mandelbrot` cells are bounded by the transformed budget. -/
theorem generate_mandelbrot_le (g : FractalGenerator) (p : FractalParams) :
    ∀ row ∈ generate_mandelbrot g p, ∀ v ∈ row,
      v ≤ effective_max_iterations g p.max_iterations := by
  simp only [generate_mandelbrot]
  split
  · exact generate_mandelbrot_adaptive_le _ _ _ _ _ _ _
  · exact rangeGrid_cell_le fun y x => escapeLoop_le _ _ _ _

/-- The function `generate_standard` always produces a `height × width` grid. -/
theorem generate_standard_shape (powf : Cq → ℚ → Cq) (g : FractalGenerator)
    (p : FractalParams) :
    (generate_standard powf g p).length = p.height ∧
      ∀ row ∈ generate_standard powf g p, row.length = p.width := by
  cases htype : p.fractal_type with
  | Mandelbrot =>
    simp only [generate_standard, htype]
    exact generate_mandelbrot_shape g p
  | Julia c =>
    simp only [generate_standard, htype, generate_julia]
    exact rangeGrid_shape rfl
  | BurningShip =>
    simp only [generate_standard, htype, generate_burning_ship]
    exact rangeGrid_shape rfl
  | Tricorn =>
    simp only [generate_standard, htype, generate_tricorn]
    exact rangeGrid_shape rfl
  | Multibrot power =>
    simp only [generate_standard, htype, generate_multibrot]
    exact rangeGrid_shape rfl
  | Custom s =>
    simp only [generate_standard, htype]
    exact generate_mandelbrot_shape g p

/-- Every cell produced by `generate_standard` is bounded by the variant's
actual budget. -/
theorem generate_standard_le (powf : Cq → ℚ → Cq) (g : FractalGenerator)
    (p : FractalParams) :
    ∀ row ∈ generate_standard powf g p, ∀ v ∈ row,
      v ≤ variant_budget g p.fractal_type p.max_iterations := by
  cases htype : p.fractal_type with
  | Mandelbrot =>
    simp only [generate_standard, htype, variant_budget]
    exact generate_mandelbrot_le g p
  | Julia c =>
    simp only [generate_standard, htype, variant_budget, generate_julia]
    exact rangeGrid_cell_le fun y x => escapeLoop_le _ _ _ _
  | BurningShip =>
    simp only [generate_standard, htype, variant_budget, generate_burning_ship]
    exact rangeGrid_cell_le fun y x => escapeLoop_le _ _ _ _
  | Tricorn =>
    simp only [generate_standard, htype, variant_budget, generate_tricorn]
    exact rangeGrid_cell_le fun y x => escapeLoop_le _ _ _ _
  | Multibrot power =>
    simp only [generate_standard, htype, variant_budget, generate_multibrot]
    exact rangeGrid_cell_le fun y x => escapeLoop_le _ _ _ _
  | Custom s =>
    simp only [generate_standard, htype, variant_budget]
    exact generate_mandelbrot_le g p

/-- The function `generate` (standard, adaptive or super-sampled) always produces a
`height × width` grid of cells bounded by the variant's actual budget. -/
theorem generate_shape_le (powf : Cq → ℚ → Cq) (g : FractalGenerator)
    (p : FractalParams) :
    (generate powf g p).length = p.height ∧
      (∀ row ∈ generate powf g p, row.length = p.width) ∧
      ∀ row ∈ generate powf g p, ∀ v ∈ row,
        v ≤ variant_budget g p.fractal_type p.max_iterations := by
  unfold generate
  split
  · simp only [generate_with_super_sampling, downsample_fractal]
    obtain ⟨hlen, hrow⟩ := rangeGrid_shape
      (f := fun y x => downsample_cell
        (generate_standard powf g
          { p with width := p.width * 2, height := p.height * 2 }) x y) rfl
    refine ⟨hlen, hrow, ?_⟩
    refine rangeGrid_cell_le ?_
    intro y x
    exact downsample_cell_le
      (generate_standard_le powf g { p with width := p.width * 2, height := p.height * 2 })
      x y
  · obtain ⟨hlen, hrow⟩ := generate_standard_shape powf g p
    exact ⟨hlen, hrow, generate_standard_le powf g p⟩

/-- With `super_sampling` off, `generate` is `generate_standard`. -/
theorem generate_eq_standard (powf : Cq → ℚ → Cq) (g : FractalGenerator)
    (p : FractalParams) (h : g.super_sampling = false) :
    generate powf g p = generate_standard powf g p := by
  simp [generate, h]

/-- With `super_sampling` on, `generate` is the box-downsample of the
standard generation at doubled dimensions and otherwise identical
parameters. -/
theorem generate_eq_super (powf : Cq → ℚ → Cq) (g : FractalGenerator)
    (p : FractalParams) (h : g.super_sampling = true) :
    generate powf g p =
      downsample_fractal
        (generate_standard powf g { p with width := p.width * 2, height := p.height * 2 })
        p.width p.height := by
  simp [generate, h, generate_with_super_sampling]

/-! ### Claim C1 -/

/-- C1 (amended): for every valid generation request and every fractal
variant, `generate` returns a grid of exactly `height` rows of exactly
`width` cells, and every cell lies in `[0, B]` where `B` is the budget the
variant actually uses: the performance/quality transform of
`max_iterations` for Mandelbrot and the Custom fallback, the raw
`max_iterations` for Julia, Burning Ship, Tricorn and Multibrot (the
transform is applied only on the `generate_mandelbrot` path). -/
theorem C1_shape_and_per_variant_bound (powf : Cq → ℚ → Cq)
    (g : FractalGenerator) (p : FractalParams) (hw : 0 < p.width)
    (hh : 0 < p.height) (hz : 0 < p.zoom) (hm : 0 < p.max_iterations) :
    (generate powf g p).length = p.height ∧
      (∀ row ∈ generate powf g p, row.length = p.width) ∧
      ∀ row ∈ generate powf g p, ∀ v ∈ row,
        v ≤ variant_budget g p.fractal_type p.max_iterations :=
  generate_shape_le powf g p

/-- C1 witness: the amended statement applied at a concrete valid request. -/
theorem C1_shape_and_per_variant_bound_witness :
    ((0 : ℕ) < 1 ∧ (0 : ℚ) < 1) ∧
    ((generate powf_id FractalGenerator.new
        ⟨FractalType.Mandelbrot, 1, 1, 1, 0, 0, 1⟩).length = 1 ∧
      (∀ row ∈ generate powf_id FractalGenerator.new
        ⟨FractalType.Mandelbrot, 1, 1, 1, 0, 0, 1⟩, row.length = 1) ∧
      ∀ row ∈ generate powf_id FractalGenerator.new
        ⟨FractalType.Mandelbrot, 1, 1, 1, 0, 0, 1⟩, ∀ v ∈ row,
        v ≤ variant_budget FractalGenerator.new FractalType.Mandelbrot 1) :=
  ⟨⟨by decide, by decide⟩,
    C1_shape_and_per_variant_bound powf_id FractalGenerator.new
      ⟨FractalType.Mandelbrot, 1, 1, 1, 0, 0, 1⟩
      (by decide) (by decide) (by decide) (by decide)⟩

set_option maxRecDepth 10000 in
unseal Rat.mul Rat.inv Rat.add Rat.sub in
/-- C1 counterexample: the claim as stated bounds every cell by the
transformed budget for every variant; but a Julia request under
performance mode keeps the raw budget of `100` (the transform would cap it
at `max(100/2, 20) = 50`), and its non-escaping origin pixel reports
`100 > 50`. -/
theorem C1_counterexample :
    generate powf_id genPerf pJuliaPerf = [[100]] ∧
      ¬ (100 ≤ effective_max_iterations genPerf pJuliaPerf.max_iterations) := by
  constructor
  · decide
  · decide

/-! ### Claim C2 -/

/-- C2 (amended): the budget transform — with `performance_mode` taking
priority over `quality_mode` — is computed once, but only on the
`generate_mandelbrot` path (Mandelbrot and the Custom fallback): for every
other variant the generated grid is entirely independent of the
`performance_mode`/`quality_mode` flags, its budget being the raw
`max_iterations`. -/
theorem C2_transform_only_on_mandelbrot_path :
    (∀ (g : FractalGenerator) (m : ℕ), g.performance_mode = true →
      effective_max_iterations g m = max (m / 2) 20) ∧
    (∀ (g : FractalGenerator) (m : ℕ), g.performance_mode = false →
      g.quality_mode = true →
      effective_max_iterations g m = min (m * 3 % 2 ^ 32 / 2) 512) ∧
    (∀ (g : FractalGenerator) (m : ℕ), g.performance_mode = false →
      g.quality_mode = false → effective_max_iterations g m = m) ∧
    (∀ (powf : Cq → ℚ → Cq) (a pm qm pm' qm' ss : Bool) (p : FractalParams),
      transform_applies p.fractal_type = false →
      generate powf ⟨a, pm, qm, ss⟩ p = generate powf ⟨a, pm', qm', ss⟩ p) ∧
    (∀ (powf : Cq → ℚ → Cq) (a ss : Bool) (p : FractalParams),
      generate powf ⟨a, true, true, ss⟩ p = generate powf ⟨a, true, false, ss⟩ p) := by
  have hstd : ∀ (powf : Cq → ℚ → Cq) (a pm qm pm' qm' ss ss' : Bool)
      (p : FractalParams), transform_applies p.fractal_type = false →
      generate_standard powf ⟨a, pm, qm, ss⟩ p = generate_standard powf ⟨a, pm', qm', ss'⟩ p := by
    intro powf a pm qm pm' qm' ss ss' p htype
    cases h : p.fractal_type <;> simp only [generate_standard, h] <;>
      simp [transform_applies, h] at htype
  refine ⟨?_, ?_, ?_, ?_, ?_⟩
  · intro g m h
    simp [effective_max_iterations, h]
  · intro g m hp hq
    simp [effective_max_iterations, hp, hq]
  · intro g m hp hq
    simp [effective_max_iterations, hp, hq]
  · intro powf a pm qm pm' qm' ss p htype
    cases ss with
    | false =>
      rw [generate_eq_standard _ _ _ rfl, generate_eq_standard _ _ _ rfl]
      exact hstd powf a pm qm pm' qm' false false p htype
    | true =>
      rw [generate_eq_super _ _ _ rfl, generate_eq_super _ _ _ rfl,
        hstd powf a pm qm pm' qm' true true
          { p with width := p.width * 2, height := p.height * 2 } htype]
  · intro powf a ss p
    have hstd' : ∀ (p : FractalParams),
        generate_standard powf ⟨a, true, true, ss⟩ p = generate_standard powf ⟨a, true, false, ss⟩ p := by
      intro p
      cases h : p.fractal_type <;> simp only [generate_standard, h] <;> rfl
    cases ss with
    | false =>
      rw [generate_eq_standard _ _ _ rfl, generate_eq_standard _ _ _ rfl]
      exact hstd' p
    | true =>
      rw [generate_eq_super _ _ _ rfl, generate_eq_super _ _ _ rfl, hstd']

/-- C2 witness: the amended statement applied at concrete inputs — the
performance-priority transform at budget `100`, and flag independence of a
concrete Julia request. -/
theorem C2_transform_only_on_mandelbrot_path_witness :
    effective_max_iterations ⟨false, true, true, false⟩ 100 = max (100 / 2) 20 ∧
      effective_max_iterations ⟨false, false, true, false⟩ 100 =
        min (100 * 3 % 2 ^ 32 / 2) 512 ∧
      effective_max_iterations ⟨false, false, false, false⟩ 100 = 100 ∧
      generate powf_id ⟨false, true, false, false⟩ pJuliaPerf =
        generate powf_id ⟨false, false, true, false⟩ pJuliaPerf ∧
      generate powf_id ⟨false, true, true, false⟩ pJuliaPerf =
        generate powf_id ⟨false, true, false, false⟩ pJuliaPerf :=
  ⟨C2_transform_only_on_mandelbrot_path.1 ⟨false, true, true, false⟩ 100 rfl,
    C2_transform_only_on_mandelbrot_path.2.1 ⟨false, false, true, false⟩ 100 rfl rfl,
    C2_transform_only_on_mandelbrot_path.2.2.1 ⟨false, false, false, false⟩ 100 rfl rfl,
    C2_transform_only_on_mandelbrot_path.2.2.2.1 powf_id false true false false true false
      pJuliaPerf (by decide),
    C2_transform_only_on_mandelbrot_path.2.2.2.2 powf_id false false pJuliaPerf⟩

set_option maxRecDepth 10000 in
unseal Rat.mul Rat.inv Rat.add Rat.sub in
/-- C2 counterexample: the claim as stated applies the transform to every
variant; but a Julia request with `max_iterations = 60` under performance
mode generates with the raw budget — its non-escaping origin pixel reports
`60`, above the claimed effective budget `max(60/2, 20) = 30`. -/
theorem C2_counterexample :
    generate powf_id genPerf pJuliaPerf60 = [[60]] ∧
      ¬ (60 ≤ effective_max_iterations genPerf pJuliaPerf60.max_iterations) := by
  constructor
  · decide
  · decide

/-! ### Claim C3 -/

/-- C3 (amended): a non-finite (`NaN`/`Infinity`) iterate makes the norm
test `z.norm_sqr() <= 4.0` false, so the loop exits at that point and the
cell reports the iteration count at which degeneracy occurred (capped at
the budget) — the cell is treated as *escaped*, not clamped to the
effective maximum; no fault is propagated (the count never exceeds the
budget). -/
theorem C3_nonfinite_treated_as_escape (powf : CF → ℚ → CF) (c : CF)
    (power : ℚ) (m k : ℕ)
    (hpass : ∀ j < k,
      normSqrLe4F ((multibrotStepF powf c power)^[j] ⟨some 0, some 0⟩) = true)
    (hfail : normSqrLe4F ((multibrotStepF powf c power)^[k] ⟨some 0, some 0⟩) = false) :
    multibrot_iterationsF powf c power m = min k m ∧
      multibrot_iterationsF powf c power m ≤ m ∧
      ∀ z : CF, z.re = none ∨ z.im = none → normSqrLe4F z = false := by
  refine ⟨escapeLoop_first_fail _ _ m k _ hpass hfail, escapeLoop_le _ _ _ _, ?_⟩
  intro z hz
  rcases hz with h | h <;> cases hre : z.re <;> cases him : z.im <;>
    simp [normSqrLe4F, hre, him] <;> simp [hre, him] at h

unseal Rat.mul Rat.add in
/-- C3 witness: the amended statement applied to a `powf` behaviour that
goes non-finite on the first step, with budget `3`: the cell reports
`min 1 3 = 1`. -/
theorem C3_nonfinite_treated_as_escape_witness :
    multibrot_iterationsF powf_nan ⟨some 0, some 0⟩ 2 3 = min 1 3 ∧
      multibrot_iterationsF powf_nan ⟨some 0, some 0⟩ 2 3 ≤ 3 ∧
      ∀ z : CF, z.re = none ∨ z.im = none → normSqrLe4F z = false :=
  C3_nonfinite_treated_as_escape powf_nan ⟨some 0, some 0⟩ 2 3 1
    (by intro j hj; interval_cases j; decide)
    (by decide)

unseal Rat.mul Rat.add in
/-- C3 counterexample: under the claim a non-finite iterate reached
mid-iteration would make the cell report the full budget; but with a `powf`
behaviour that is non-finite on the first step and budget `5` the loop
exits immediately and reports `1`, not `5`. -/
theorem C3_counterexample :
    multibrot_iterationsF powf_nan ⟨some 0, some 0⟩ 2 5 = 1 ∧ ¬ multibrotNanClaim := by
  have h1 : multibrot_iterationsF powf_nan ⟨some 0, some 0⟩ 2 5 = 1 := by decide
  refine ⟨h1, ?_⟩
  intro h
  have h5 := h powf_nan ⟨some 0, some 0⟩ 2 5 1 (by omega)
    (by intro j hj; interval_cases j; decide) (by left; decide)
  rw [h1] at h5
  exact absurd h5 (by decide)

/-! ### Claim C4 -/

/-- An adaptive Mandelbrot cell equals the sampled iteration count at the
even origin of its 2×2 block. -/
theorem generate_mandelbrot_adaptive_cell (w h : ℕ) (x1 x2 y1 y2 : ℚ) (mi : ℕ)
    (y x : ℕ) (hy : y < h) (hx : x < w) :
    ((generate_mandelbrot_adaptive w h x1 x2 y1 y2 mi).getD y []).getD x 0 =
      mandelbrot_iterations
        ⟨x1 + ((x / 2 * 2 : ℕ) : ℚ) * ((x2 - x1) / (w : ℚ)),
         y1 + ((y / 2 * 2 : ℕ) : ℚ) * ((y2 - y1) / (h : ℚ))⟩ mi := by
  simp only [generate_mandelbrot_adaptive]
  rw [getD_range_map _ _ _ hy, getD_range_map _ _ _ hx]
  have hsx : min (x / 2) ((w + 2 - 1) / 2 - 1) = x / 2 := by omega
  have hsy : min (y / 2) ((h + 2 - 1) / 2 - 1) = y / 2 := by omega
  rw [hsx, hsy, getD_range_map _ _ _ (by omega), getD_range_map _ _ _ (by omega)]

/-- On the adaptive path, `generate` reduces to
`generate_mandelbrot_adaptive` over the derived plane bounds. -/
theorem generate_eq_adaptive (powf : Cq → ℚ → Cq) (g : FractalGenerator)
    (p : FractalParams) (hsuper : g.super_sampling = false)
    (hadapt : g.use_adaptive_sampling = true) (hzoom : 10 < p.zoom)
    (htype : transform_applies p.fractal_type = true) :
    generate powf g p =
      generate_mandelbrot_adaptive p.width p.height
        (p.center_x - 2 / p.zoom) (p.center_x + 2 / p.zoom)
        (p.center_y - 2 / p.zoom) (p.center_y + 2 / p.zoom)
        (effective_max_iterations g p.max_iterations) := by
  rw [generate_eq_standard _ _ _ hsuper]
  cases h : p.fractal_type <;> simp [transform_applies, h] at htype <;>
    simp only [generate_standard, h, generate_mandelbrot] <;>
    rw [if_pos ⟨by simp [hadapt], hzoom⟩]

/-- C4 (amended): for Mandelbrot and Custom requests with the
adaptive-sampling flag set, `zoom > 10` and super-sampling off, the output
is block-uniform: every cell equals the cell at the even origin of its 2×2
block, which holds the iteration count sampled at that even-origin pixel.
The other variants (Julia, Burning Ship, Tricorn, Multibrot) never take the
adaptive path and the invariant fails for them. -/
theorem C4_block_uniformity_mandelbrot_only (powf : Cq → ℚ → Cq)
    (g : FractalGenerator) (p : FractalParams)
    (hsuper : g.super_sampling = false) (hadapt : g.use_adaptive_sampling = true)
    (hzoom : 10 < p.zoom) (htype : transform_applies p.fractal_type = true)
    (y x : ℕ) (hy : y < p.height) (hx : x < p.width) :
    ((generate powf g p).getD y []).getD x 0 =
        ((generate powf g p).getD (y / 2 * 2) []).getD (x / 2 * 2) 0 ∧
      ((generate powf g p).getD y []).getD x 0 =
        mandelbrot_iterations
          ⟨(p.center_x - 2 / p.zoom) + ((x / 2 * 2 : ℕ) : ℚ) *
              ((p.center_x + 2 / p.zoom - (p.center_x - 2 / p.zoom)) / (p.width : ℚ)),
           (p.center_y - 2 / p.zoom) + ((y / 2 * 2 : ℕ) : ℚ) *
              ((p.center_y + 2 / p.zoom - (p.center_y - 2 / p.zoom)) / (p.height : ℚ))⟩
          (effective_max_iterations g p.max_iterations) := by
  rw [generate_eq_adaptive powf g p hsuper hadapt hzoom htype]
  have e1 : x / 2 * 2 / 2 * 2 = x / 2 * 2 := by omega
  have e2 : y / 2 * 2 / 2 * 2 = y / 2 * 2 := by omega
  constructor
  · rw [generate_mandelbrot_adaptive_cell _ _ _ _ _ _ _ _ _ hy hx,
      generate_mandelbrot_adaptive_cell _ _ _ _ _ _ _ _ _
        (by omega : y / 2 * 2 < p.height) (by omega : x / 2 * 2 < p.width), e1, e2]
  · rw [generate_mandelbrot_adaptive_cell _ _ _ _ _ _ _ _ _ hy hx]

/-- C4 witness: the amended statement applied to a concrete adaptive
Mandelbrot request at cell `(1, 1)`. -/
theorem C4_block_uniformity_mandelbrot_only_witness :
    (genAdaptive.super_sampling = false ∧ genAdaptive.use_adaptive_sampling = true ∧
      (10 : ℚ) < pMandelZoom.zoom ∧ transform_applies pMandelZoom.fractal_type = true) ∧
    (((generate powf_id genAdaptive pMandelZoom).getD 1 []).getD 1 0 =
        ((generate powf_id genAdaptive pMandelZoom).getD (1 / 2 * 2) []).getD (1 / 2 * 2) 0 ∧
      ((generate powf_id genAdaptive pMandelZoom).getD 1 []).getD 1 0 =
        mandelbrot_iterations
          ⟨(pMandelZoom.center_x - 2 / pMandelZoom.zoom) + ((1 / 2 * 2 : ℕ) : ℚ) *
              ((pMandelZoom.center_x + 2 / pMandelZoom.zoom -
                (pMandelZoom.center_x - 2 / pMandelZoom.zoom)) / (pMandelZoom.width : ℚ)),
           (pMandelZoom.center_y - 2 / pMandelZoom.zoom) + ((1 / 2 * 2 : ℕ) : ℚ) *
              ((pMandelZoom.center_y + 2 / pMandelZoom.zoom -
                (pMandelZoom.center_y - 2 / pMandelZoom.zoom)) / (pMandelZoom.height : ℚ))⟩
          (effective_max_iterations genAdaptive pMandelZoom.max_iterations)) :=
  ⟨⟨rfl, rfl, by decide, rfl⟩,
    C4_block_uniformity_mandelbrot_only powf_id genAdaptive pMandelZoom
      rfl rfl (by decide) rfl 1 1 (by decide) (by decide)⟩

set_option maxRecDepth 10000 in
unseal Rat.mul Rat.inv Rat.add Rat.sub in
/-- C4 counterexample: the claim asserts block-uniformity for *every*
variant; but a 2×2 Julia request with the adaptive flag on and `zoom = 16`
produces `[[1, 2], [1, 2]]` — the cells of its single even-origin 2×2 block
differ, because Julia generation never takes the adaptive path. -/
theorem C4_counterexample :
    generate powf_id genAdaptive pJuliaZoom = [[1, 2], [1, 2]] ∧
      ((generate powf_id genAdaptive pJuliaZoom).getD 0 []).getD 1 0 ≠
        ((generate powf_id genAdaptive pJuliaZoom).getD 0 []).getD 0 0 := by
  constructor
  · decide
  · decide

/-! ### Claim C5 -/

/-- A downsampled cell of a constant grid of full doubled dimensions is
that constant, provided the 2×2 block sum does not overflow the `u32`
accumulator. -/
theorem downsample_cell_const {data : Grid} {tw th c : ℕ}
    (hlen : data.length = 2 * th) (hrow : ∀ row ∈ data, row.length = 2 * tw)
    (hc : ∀ row ∈ data, ∀ v ∈ row, v = c) (hof : 4 * c < 2 ^ 32)
    {x y : ℕ} (hx : x < tw) (hy : y < th) :
    downsample_cell data x y = c := by
  have hrl : ∀ i, i < data.length → (data.getD i []).length = 2 * tw :=
    fun i hi => hrow _ (getD_mem hi _)
  have hcv : ∀ i j, i < data.length → j < 2 * tw → (data.getD i []).getD j 0 = c := by
    intro i j hi hj
    exact hc _ (getD_mem hi _) _ (getD_mem (by rw [hrl i hi]; omega) 0)
  have hs : ∀ d : ℕ × ℕ, d.1 ≤ 1 → d.2 ≤ 1 →
      downsample_sample data x y d = some c := by
    intro d h1 h2
    have hy' : y * 2 + d.1 < data.length := by omega
    have hx' : x * 2 + d.2 < (data.getD (y * 2 + d.1) []).length := by
      rw [hrl _ hy']
      omega
    simp only [downsample_sample]
    rw [if_pos ⟨hy', hx'⟩, hcv _ _ hy' (by omega)]
  have h00 := hs (0, 0) (by decide) (by decide)
  have h01 := hs (0, 1) (by decide) (by decide)
  have h10 := hs (1, 0) (by decide) (by decide)
  have h11 := hs (1, 1) (by decide) (by decide)
  simp only [downsample_cell, List.filterMap_cons, List.filterMap_nil,
    h00, h01, h10, h11]
  simp only [List.length_cons, List.length_nil, List.sum_cons, List.sum_nil]
  rw [if_pos (by omega), Nat.mod_eq_of_lt (by omega)]
  omega

/-- C5 (amended): with `super_sampling` set, `generate` is the
box-downsample (floor-division average of the in-bounds cells of each 2×2
source block) of the standard generation at doubled width and height; and
downsampling a doubled grid holding one constant value everywhere
reproduces exactly that constant — provided the 2×2 block sum `4*c` fits in
the `u32` accumulator. -/
theorem C5_super_sampling_box_downsample :
    (∀ (powf : Cq → ℚ → Cq) (g : FractalGenerator) (p : FractalParams),
      g.super_sampling = true →
      generate powf g p =
        downsample_fractal
          (generate_standard powf g { p with width := p.width * 2, height := p.height * 2 })
          p.width p.height) ∧
    (∀ (data : Grid) (tw th c : ℕ),
      data.length = 2 * th → (∀ row ∈ data, row.length = 2 * tw) →
      (∀ row ∈ data, ∀ v ∈ row, v = c) → 4 * c < 2 ^ 32 →
      ∀ row ∈ downsample_fractal data tw th, ∀ v ∈ row, v = c) := by
  constructor
  · exact generate_eq_super
  · intro data tw th c hlen hrow hc hof row hrowmem v hv
    simp only [downsample_fractal] at hrowmem
    rcases List.mem_map.1 hrowmem with ⟨y, hy, rfl⟩
    rcases List.mem_map.1 hv with ⟨x, hx, rfl⟩
    exact downsample_cell_const hlen hrow hc hof
      (List.mem_range.1 hx) (List.mem_range.1 hy)

/-- C5 witness: the amended statement applied to a concrete super-sampling
request and to a concrete constant doubled grid. -/
theorem C5_super_sampling_box_downsample_witness :
    (generate powf_id ⟨false, false, false, true⟩ pJuliaPerf =
      downsample_fractal
        (generate_standard powf_id ⟨false, false, false, true⟩
          { pJuliaPerf with width := pJuliaPerf.width * 2, height := pJuliaPerf.height * 2 })
        pJuliaPerf.width pJuliaPerf.height) ∧
    (∀ row ∈ downsample_fractal [[7, 7], [7, 7]] 1 1, ∀ v ∈ row, v = 7) :=
  ⟨C5_super_sampling_box_downsample.1 powf_id ⟨false, false, false, true⟩ pJuliaPerf rfl,
    C5_super_sampling_box_downsample.2 [[7, 7], [7, 7]] 1 1 7
      (by decide) (by decide) (by decide) (by decide)⟩

/-- C5 counterexample: the constant-reproduction law fails once the 2×2
block sum overflows the `u32` accumulator: a doubled grid holding `2^30`
everywhere downsamples to `0` (`4 * 2^30` wraps to `0` mod `2^32`), not to
`2^30`. -/
theorem C5_counterexample :
    downsample_fractal [[2 ^ 30, 2 ^ 30], [2 ^ 30, 2 ^ 30]] 1 1 = [[0]] ∧
      (0 : ℕ) ≠ 2 ^ 30 := by
  constructor
  · decide
  · decide

/-- Looking up the key just inserted finds the inserted grid, whether the
insert was a fresh `cons` or an in-place replacement. -/
theorem cacheGet_cacheInsert_self (cache : Cache) (k : CacheKey) (g : Grid) :
    cacheGet (cacheInsert cache k g) k = some g := by
  have hmap : ∀ c : Cache,
      cacheGet (c.map (fun e => if e.1 == k then (k, g) else e)) k =
        if (cacheGet c k).isSome then some g else none := by
    intro c
    induction c with
    | nil => simp [cacheGet]
    | cons e es ih =>
      by_cases he : (e.1 == k) = true
      · simp only [cacheGet, List.map_cons, List.find?_cons, he, if_pos he]
        simp [cacheGet, List.find?_cons, he] at ih ⊢
      · simp only [cacheGet, List.map_cons, List.find?_cons, if_neg he] at ih ⊢
        rw [Bool.not_eq_true] at he
        simp only [he]
        simpa [cacheGet] using ih
  unfold cacheInsert
  split
  · rename_i hsome
    rw [hmap cache, if_pos hsome]
  · simp [cacheGet, List.find?_cons]

/-! ### Claim C6 -/

/-- C6 (amended): the cache key is a pure function of the variant
(parameters included), width, height, the *formatted* centre and zoom
components — the printed sign together with the magnitude rounded to 6
(centre) or 3 (zoom) decimal digits — and `max_iterations`: any two
requests that agree on all of these produce equal keys, even if the
unrounded values differ below the rounding precision, and hence collapse
to one cache entry (inserting under the second key replaces the first
entry instead of growing the cache).  Agreement of the mathematically
rounded values alone is not enough: the formatter keeps the `-` sign of a
negative value whose magnitude rounds to zero. -/
theorem C6_cache_key_collapses_rounded (p q : FractalParams)
    (h1 : p.fractal_type = q.fractal_type) (h2 : p.width = q.width)
    (h3 : p.height = q.height)
    (h4 : fmtFixed 6 p.center_x = fmtFixed 6 q.center_x)
    (h5 : fmtFixed 6 p.center_y = fmtFixed 6 q.center_y)
    (h6 : fmtFixed 3 p.zoom = fmtFixed 3 q.zoom)
    (h7 : p.max_iterations = q.max_iterations) :
    create_cache_key p = create_cache_key q ∧
      ∀ (cache : Cache) (gp gq : Grid),
        (cacheInsert (cacheInsert cache (create_cache_key p) gp)
            (create_cache_key q) gq).length =
          (cacheInsert cache (create_cache_key p) gp).length := by
  have hk : create_cache_key p = create_cache_key q := by
    simp [create_cache_key, h1, h2, h3, h4, h5, h6, h7]
  refine ⟨hk, ?_⟩
  intro cache gp gq
  rw [← hk, cacheInsert_length, cacheGet_cacheInsert_self]
  rfl

unseal Rat.mul Rat.inv Rat.add Rat.sub in
/-- C6 witness: two requests whose centres differ only by sub-precision
noise (`1/3` versus `0.33333349`, both formatting to `0.333333` with the
same sign) produce the same key. -/
theorem C6_cache_key_collapses_rounded_witness :
    (pKeyA.center_x ≠ pKeyB.center_x ∧
      fmtFixed 6 pKeyA.center_x = fmtFixed 6 pKeyB.center_x) ∧
    (create_cache_key pKeyA = create_cache_key pKeyB ∧
      ∀ (cache : Cache) (gp gq : Grid),
        (cacheInsert (cacheInsert cache (create_cache_key pKeyA) gp)
            (create_cache_key pKeyB) gq).length =
          (cacheInsert cache (create_cache_key pKeyA) gp).length) :=
  ⟨⟨by decide, by decide⟩,
    C6_cache_key_collapses_rounded pKeyA pKeyB rfl rfl rfl (by decide) rfl
      (by decide) rfl⟩

unseal Rat.mul Rat.inv Rat.add Rat.sub in
/-- C6 counterexample: the claim as stated lets requests agree merely on
the *rounded values* of centre and zoom; but `App::create_cache_key`
formats the components, and `{:.6}` keeps the sign of a negative value
whose magnitude rounds to zero.  The centres `-2⁻²²` and `2⁻²²` both round
to `0` at 6 decimal digits and the two requests agree on every other
component, yet their keys differ (`-0.000000` versus `0.000000`). -/
theorem C6_counterexample :
    roundedValue 6 pKeySignA.center_x = roundedValue 6 pKeySignB.center_x ∧
      pKeySignA.fractal_type = pKeySignB.fractal_type ∧
      pKeySignA.width = pKeySignB.width ∧
      pKeySignA.height = pKeySignB.height ∧
      roundedValue 6 pKeySignA.center_y = roundedValue 6 pKeySignB.center_y ∧
      roundedValue 3 pKeySignA.zoom = roundedValue 3 pKeySignB.zoom ∧
      pKeySignA.max_iterations = pKeySignB.max_iterations ∧
      create_cache_key pKeySignA ≠ create_cache_key pKeySignB := by
  refine ⟨by decide, rfl, rfl, rfl, by decide, by decide, rfl, by decide⟩

/-! ### Claim C7 -/

/-- C7 (amended): on a cache miss the grid is inserted only when the
current size is strictly below the soft ceiling 50; with 50 ≤ size < 100
the freshly computed grid is served without being cached and the cache is
untouched; only at size ≥ 100 is the whole cache cleared.  Since the insert
path stops at 50, inserting entries one by one can never reach the hard
capacity: 101 distinct-key misses from an empty cache leave exactly 50
entries, and no full clear ever fires. -/
theorem C7_insert_policy :
    (∀ (cache : Cache) (k : CacheKey) (g : Grid), cacheGet cache k = none →
      cache.length < 50 → regenerate_cache_step cache k g = cacheInsert cache k g) ∧
    (∀ (cache : Cache) (k : CacheKey) (g : Grid), cacheGet cache k = none →
      50 ≤ cache.length → cache.length < 100 →
      regenerate_cache_step cache k g = cache) ∧
    (∀ (cache : Cache) (k : CacheKey) (g : Grid), cacheGet cache k = none →
      100 ≤ cache.length → regenerate_cache_step cache k g = []) := by
  refine ⟨?_, ?_, ?_⟩ <;> intro cache k g hmiss
  · intro hlt
    unfold regenerate_cache_step
    rw [if_neg (by simp [hmiss]), if_pos hlt]
  · intro h50 h100
    unfold regenerate_cache_step
    rw [if_neg (by simp [hmiss]), if_neg (by omega), if_neg (by omega)]
  · intro h100
    unfold regenerate_cache_step
    rw [if_neg (by simp [hmiss]), if_neg (by omega), if_pos (by omega)]

set_option maxRecDepth 4000 in
/-- C7 witness: the three miss behaviours at concrete caches of sizes 0,
50 and 100. -/
theorem C7_insert_policy_witness :
    regenerate_cache_step [] (mkCacheKey 777) [[0]] = cacheInsert [] (mkCacheKey 777) [[0]] ∧
      regenerate_cache_step cache50 (mkCacheKey 777) [[0]] = cache50 ∧
      regenerate_cache_step cache100 (mkCacheKey 777) [[0]] = [] :=
  ⟨C7_insert_policy.1 [] (mkCacheKey 777) [[0]] (by decide) (by decide),
    C7_insert_policy.2.1 cache50 (mkCacheKey 777) [[0]] (by decide) (by decide) (by decide),
    C7_insert_policy.2.2 cache100 (mkCacheKey 777) [[0]] (by decide) (by decide)⟩

set_option maxRecDepth 8000 in
/-- C7 counterexample: the claim's consequence — that driving the cache up
to the hard capacity boundary and one step beyond leaves a size reflecting
a full clear — is false on the code: 101 distinct-key misses from an empty
cache leave 50 entries (insertion stops at the soft ceiling; the size never
reaches 100 and no clear fires). -/
theorem C7_counterexample :
    (regenerate_cache_run cacheRun101).length = 50 ∧
      (regenerate_cache_run cacheRun101).length ≠ 0 := by
  constructor
  · decide
  · decide

/-! ### Claim C8 -/

/-- C8 (amended): for every count, exactly one bucket matches in each of
the *three* glyph/colour range tables of the source (high-quality unicode,
standard unicode, ascii) — no gaps, no overlaps, the final bucket covering
all counts at or above its threshold — and the (glyph, colour) result is a
pure lookup determined by nothing but the count and the
`use_unicode`/`quality_mode` flags; the ascii path ignores `quality_mode`,
so the claimed fourth table does not exist. -/
theorem C8_table_exhaustiveness_and_purity :
    (∀ n : ℕ, bucketMatchCount high_quality_table n = 1) ∧
    (∀ n : ℕ, bucketMatchCount standard_table n = 1) ∧
    (∀ n : ℕ, bucketMatchCount ascii_table n = 1) ∧
    (∀ (r : TerminalRenderer) (n : ℕ),
      iterations_to_char_and_color r n =
        tableLookup
          (if r.use_unicode then
            if r.quality_mode then high_quality_table else standard_table
          else ascii_table) n) := by
  refine ⟨fun n => tilesFrom_one_match _ 0 n tables_tile.1 (Nat.zero_le n),
    fun n => tilesFrom_one_match _ 0 n tables_tile.2.1 (Nat.zero_le n),
    fun n => tilesFrom_one_match _ 0 n tables_tile.2.2 (Nat.zero_le n), ?_⟩
  intro r n
  by_cases hu : r.use_unicode <;> by_cases hq : r.quality_mode <;>
    simp [iterations_to_char_and_color, iterations_to_unicode_char_and_color,
      iterations_to_high_quality_char_and_color, iterations_to_standard_char_and_color,
      iterations_to_ascii_char_and_color, hu, hq]

/-- C8 counterexample: the claim's four independent (palette × detail)
tables do not exist — on the ascii palette the detail flag never changes
the result, because `iterations_to_char_and_color` with `use_unicode`
false goes to the single ascii table without consulting `quality_mode`. -/
theorem C8_counterexample : ¬ fourDistinctTablesClaim := by
  intro h
  rcases h false with ⟨n, hn⟩
  exact hn rfl

/-! ### Claim C9 -/

/-- Cell law of `render_to_text` when differential rendering is active
(fast flag on, retained grid of matching dimensions): a cell whose count
equals the retained cell is the blank placeholder, any other cell is its
computed glyph (styled when colours are on). -/
theorem render_cell_differential (r : TerminalRenderer) (data last : Grid)
    (tw th y x : ℕ) (hfast : r.use_fast_rendering = true)
    (hlast : r.last_rendered_data = some last) (hne : data ≠ [])
    (hlen : last.length = data.length)
    (hwid : (last.getD 0 []).length = (data.getD 0 []).length)
    (hy : y < min th data.length) (hx : x < min tw (data.getD 0 []).length) :
    ((render_to_text r data tw th).1.getD y []).getD x ('?', none) =
      if (last.getD y []).getD x 0 = (data.getD y []).getD x 0 then (' ', none)
      else
        if r.use_colors then
          ((iterations_to_char_and_color r ((data.getD y []).getD x 0)).1,
            some (iterations_to_char_and_color r ((data.getD y []).getD x 0)).2)
        else ((iterations_to_char_and_color r ((data.getD y []).getD x 0)).1, none) := by
  simp only [render_to_text, if_neg hne]
  rw [getD_range_map _ _ _ hy, getD_range_map _ _ _ hx]
  simp only [hlast, hfast, hlen, hwid, beq_self_eq_true, Bool.and_self, Bool.true_and]
  by_cases hc : (last.getD y []).getD x 0 = (data.getD y []).getD x 0
  · have hbt : ((last.getD y []).getD x 0 == (data.getD y []).getD x 0) = true :=
      beq_iff_eq.mpr hc
    rw [if_pos hc, if_pos hbt]
  · have hbf : ¬ ((last.getD y []).getD x 0 == (data.getD y []).getD x 0) = true := by
      simpa using hc
    rw [if_neg hc, if_neg hbf]

/-- Cell law of `render_to_text` when differential rendering is not active:
every in-range cell is its computed glyph. -/
theorem render_cell_plain (r : TerminalRenderer) (data : Grid)
    (tw th y x : ℕ) (hne : data ≠ [])
    (hdiff : (r.use_fast_rendering &&
      match r.last_rendered_data with
      | some last => last.length == data.length &&
          ((last.getD 0 []).length == (data.getD 0 []).length)
      | none => false) = false)
    (hy : y < min th data.length) (hx : x < min tw (data.getD 0 []).length) :
    ((render_to_text r data tw th).1.getD y []).getD x ('?', none) =
      if r.use_colors then
        ((iterations_to_char_and_color r ((data.getD y []).getD x 0)).1,
          some (iterations_to_char_and_color r ((data.getD y []).getD x 0)).2)
      else ((iterations_to_char_and_color r ((data.getD y []).getD x 0)).1, none) := by
  simp only [render_to_text, if_neg hne]
  rw [getD_range_map _ _ _ hy, getD_range_map _ _ _ hx]
  simp only [hdiff, Bool.false_and, Bool.false_eq_true, if_false]

/-- Calling `render_to_text` with the fast flag on retains the grid it rendered. -/
theorem render_to_text_retains (r : TerminalRenderer) (data : Grid)
    (tw th : ℕ) (hfast : r.use_fast_rendering = true) (hne : data ≠ []) :
    (render_to_text r data tw th).2 = { r with last_rendered_data := some data } := by
  simp only [render_to_text, if_neg hne]
  simp [hfast]

/-- C9: with differential rendering on and a retained grid of matching
dimensions, a cell whose count equals the retained cell is emitted as the
blank placeholder and any other cell as its computed glyph; re-rendering an
unchanged grid therefore yields all-blank placeholders, while a call whose
dimensions (height or width) differ from the retained grid renders every
cell with its computed glyph. -/
theorem C9_differential_rendering :
    (∀ (r : TerminalRenderer) (data last : Grid) (tw th y x : ℕ),
      r.use_fast_rendering = true → r.last_rendered_data = some last →
      data ≠ [] → last.length = data.length →
      (last.getD 0 []).length = (data.getD 0 []).length →
      y < min th data.length → x < min tw (data.getD 0 []).length →
      ((render_to_text r data tw th).1.getD y []).getD x ('?', none) =
        if (last.getD y []).getD x 0 = (data.getD y []).getD x 0 then (' ', none)
        else
          if r.use_colors then
            ((iterations_to_char_and_color r ((data.getD y []).getD x 0)).1,
              some (iterations_to_char_and_color r ((data.getD y []).getD x 0)).2)
          else ((iterations_to_char_and_color r ((data.getD y []).getD x 0)).1, none)) ∧
    (∀ (r : TerminalRenderer) (data : Grid) (tw th y x : ℕ),
      r.use_fast_rendering = true → data ≠ [] →
      y < min th data.length → x < min tw (data.getD 0 []).length →
      (((render_to_text (render_to_text r data tw th).2 data tw th).1.getD y []).getD x
        ('?', none)) = (' ', none)) ∧
    (∀ (r : TerminalRenderer) (data last : Grid) (tw th y x : ℕ),
      r.last_rendered_data = some last →
      (last.length ≠ data.length ∨
        (last.getD 0 []).length ≠ (data.getD 0 []).length) →
      data ≠ [] → y < min th data.length → x < min tw (data.getD 0 []).length →
      ((render_to_text r data tw th).1.getD y []).getD x ('?', none) =
        if r.use_colors then
          ((iterations_to_char_and_color r ((data.getD y []).getD x 0)).1,
            some (iterations_to_char_and_color r ((data.getD y []).getD x 0)).2)
        else ((iterations_to_char_and_color r ((data.getD y []).getD x 0)).1, none)) := by
  refine ⟨render_cell_differential, ?_, ?_⟩
  · intro r data tw th y x hfast hne hy hx
    rw [render_to_text_retains r data tw th hfast hne,
      render_cell_differential { r with last_rendered_data := some data } data data
        tw th y x hfast rfl hne rfl rfl hy hx,
      if_pos rfl]
  · intro r data last tw th y x hlast hdims hne hy hx
    refine render_cell_plain r data tw th y x hne ?_ hy hx
    rw [hlast]
    rcases hdims with hlen | hwid
    · have hb : (last.length == data.length) = false := by
        simp [hlen]
      simp [hb]
    · have hb : ((last.getD 0 []).length == (data.getD 0 []).length) = false :=
        beq_eq_false_iff_ne.mpr hwid
      simp only [List.getD_eq_getElem?_getD] at hb
      simp [hb]

/-- C9 witness: the three behaviours at concrete one-cell grids — a changed
cell renders its glyph, an unchanged grid re-renders all-blank, and a
dimension mismatch forces a full re-render. -/
theorem C9_differential_rendering_witness :
    (((render_to_text ⟨true, true, true, true, false, some [[5]]⟩ [[9]] 1 1).1.getD 0
        []).getD 0 ('?', none) =
      if ([[5]].getD 0 []).getD 0 0 = ([[9]].getD 0 []).getD 0 0 then ((' ', none) : RSpan)
      else
        if true then
          ((iterations_to_char_and_color ⟨true, true, true, true, false, some [[5]]⟩ 9).1,
            some (iterations_to_char_and_color ⟨true, true, true, true, false, some [[5]]⟩ 9).2)
        else
          ((iterations_to_char_and_color ⟨true, true, true, true, false, some [[5]]⟩ 9).1,
            none)) ∧
    (((render_to_text
        (render_to_text ⟨true, true, true, true, false, none⟩ [[3]] 1 1).2
        [[3]] 1 1).1.getD 0 []).getD 0 ('?', none) = (' ', none)) ∧
    (((render_to_text ⟨true, true, true, true, false, some [[1], [2]]⟩ [[9]] 1 1).1.getD 0
        []).getD 0 ('?', none) =
      if true then
        ((iterations_to_char_and_color ⟨true, true, true, true, false, some [[1], [2]]⟩ 9).1,
          some (iterations_to_char_and_color ⟨true, true, true, true, false, some [[1], [2]]⟩ 9).2)
      else
        ((iterations_to_char_and_color ⟨true, true, true, true, false, some [[1], [2]]⟩ 9).1,
          none)) :=
  ⟨C9_differential_rendering.1 ⟨true, true, true, true, false, some [[5]]⟩ [[9]] [[5]] 1 1 0 0
      rfl rfl (by decide) (by decide) (by decide) (by decide) (by decide),
    C9_differential_rendering.2.1 ⟨true, true, true, true, false, none⟩ [[3]] 1 1 0 0
      rfl (by decide) (by decide) (by decide),
    C9_differential_rendering.2.2 ⟨true, true, true, true, false, some [[1], [2]]⟩ [[9]]
      [[1], [2]] 1 1 0 0 rfl (Or.inl (by decide)) (by decide) (by decide) (by decide)⟩

/-! ### Claim C10 -/

/-- C10: starting from an empty cache, any sequence of `regenerate` calls
leaves at most 50 entries — the insert path only inserts strictly below
50, so the size never reaches the hard capacity of 100 and the full-clear
branch is unreachable through generation alone. -/
theorem C10_insert_path_never_reaches_capacity :
    ∀ reqs : List (CacheKey × Grid),
      (regenerate_cache_run reqs).length ≤ 50 ∧
        ¬ 100 ≤ (regenerate_cache_run reqs).length := by
  have haux : ∀ (reqs : List (CacheKey × Grid)) (cache : Cache), cache.length ≤ 50 →
      (reqs.foldl (fun c r => regenerate_cache_step c r.1 r.2) cache).length ≤ 50 := by
    intro reqs
    induction reqs with
    | nil => intro cache h; exact h
    | cons r rs ih =>
      intro cache h
      exact ih _ (regenerate_cache_step_le _ _ _ h)
  intro reqs
  have h : (regenerate_cache_run reqs).length ≤ 50 := haux reqs [] (by simp)
  exact ⟨h, by omega⟩

end FractalRust
